import Mathlib

/-!
Shallow embedding of the tfx container command-line resolution code:
`tfx/dsl/components/_command_line_resolver.py` and
`tfx/orchestration/launcher/container_common.py`, together with theorems
checking the natural-language specification against it.

Python exceptions are modelled with `Except PyError`; Python `dict`s with
association lists looked up by `List.lookup`; the dynamically typed values
that can flow through getter functions and `exec_properties` with `PyVal`.
-/

set_option autoImplicit false

namespace TfxSpec

/-- Python exception kinds raised by the embedded code. `KeyError` and
`IndexError` are subclasses of `LookupError` in Python. -/
inductive PyError where
  | typeError
  | keyError (key : String)
  | indexError
  | assertionError
  | attributeError
  deriving DecidableEq, Repr

/-- Python's `LookupError` hierarchy: `KeyError` and `IndexError` both derive
from `LookupError`. -/
def PyError.isLookupError : PyError → Bool
  | .keyError _ => true
  | .indexError => true
  | _ => false

/-- A dynamically typed Python value as far as the resolver can observe it:
the getters and `exec_properties` are annotated `Text`/`Any` but may hold
non-string values at run time (checked by `assert isinstance(..., Text)`). -/
inductive PyVal where
  | str (s : String)
  | int (n : Int)
  | boolean (b : Bool)
  | pynone
  deriving DecidableEq, Repr

/-- Modelled from the spec: the `tfx.dsl.components.structures` module is not
under `src/`. A `CommandArgumentToken` is "a tagged variant over
{LiteralString, InputValueRef(name), InputUriRef(name), OutputUriRef(name)}";
`unknownVariant` stands for "any other variant", which the resolver must
reject with a type-mismatch error. -/
inductive CommandlineArgumentType where
  | str (s : String)
  | inputValuePlaceholder (input_name : String)
  | inputUriPlaceholder (input_name : String)
  | outputUriPlaceholder (output_name : String)
  | unknownVariant
  deriving DecidableEq, Repr

/-- Modelled from the spec: `structures.ContainerSpec` is not under `src/`.
"ContainerSpec: {image: string-or-template, command: ordered sequence of
CommandArgumentToken ..., possibly empty/absent}". `command = none` models a
Python `None`/absent command field (`container_spec.command or []`). -/
structure ContainerSpec where
  image : String
  command : Option (List CommandlineArgumentType)
  deriving DecidableEq, Repr

/-- Modelled from the spec: `types.Artifact` is not under `src/`. "Artifact
reference: opaque handle exposing at least a single resolvable URI". -/
structure Artifact where
  uri : String
  deriving DecidableEq, Repr

/-- Python `exec_properties[input_name]`: dict subscript, raising `KeyError`
when the key is absent. -/
def pyDictGet {α : Type} (d : List (String × α)) (key : String) :
    Except PyError α :=
  match d.lookup key with
  | some v => Except.ok v
  | none => Except.error (PyError.keyError key)

/-- Python `lst[0]`: first-element subscript, raising `IndexError` on an
empty list. -/
def pyListFirst {α : Type} : List α → Except PyError α
  | [] => Except.error PyError.indexError
  | a :: _ => Except.ok a

/-- Embeds `expand_command_line_arg` (the closure inside
`resolve_command_line` in `_command_line_resolver.py`, lines 42-56): an
`isinstance` dispatch over the token, calling the matching getter, and
`raise TypeError()` on anything else. -/
def expand_command_line_arg
    (input_value_getter input_uri_getter output_uri_getter :
      String → Except PyError PyVal) :
    CommandlineArgumentType → Except PyError PyVal
  | .str s => Except.ok (PyVal.str s)
  | .inputValuePlaceholder n => input_value_getter n
  | .inputUriPlaceholder n => input_uri_getter n
  | .outputUriPlaceholder n => output_uri_getter n
  | .unknownVariant => Except.error PyError.typeError

/-- The `for cmd_arg in ...` loop body of `resolve_command_line` (lines
58-63): expand each token, `assert isinstance(resolved_cmd_arg, Text)`, and
collect in order; the first raised exception aborts the whole call. -/
def resolve_command_line_loop
    (input_value_getter input_uri_getter output_uri_getter :
      String → Except PyError PyVal) :
    List CommandlineArgumentType → Except PyError (List String)
  | [] => Except.ok []
  | arg :: rest =>
    match expand_command_line_arg input_value_getter input_uri_getter
        output_uri_getter arg with
    | Except.error e => Except.error e
    | Except.ok (PyVal.str s) =>
      match resolve_command_line_loop input_value_getter input_uri_getter
          output_uri_getter rest with
      | Except.error e => Except.error e
      | Except.ok tl => Except.ok (s :: tl)
    | Except.ok _ => Except.error PyError.assertionError

/-- Embeds `resolve_command_line` (`_command_line_resolver.py`, lines 25-63).
`container_spec.command or []` treats an absent (`None`) or empty command as
the empty list. -/
def resolve_command_line (container_spec : ContainerSpec)
    (input_value_getter input_uri_getter output_uri_getter :
      String → Except PyError PyVal) :
    Except PyError (List String) :=
  resolve_command_line_loop input_value_getter input_uri_getter
    output_uri_getter (container_spec.command.getD [])

/-- Embeds `resolve_command_line_for_non_managed`
(`container_common.py`, lines 79-112): wires the three getters over the
caller's dictionaries and delegates to `resolve_command_line`.
The three local getter closures are inlined:
`input_value_getter n = exec_properties[n]`,
`input_uri_getter n = input_dict[n][0].uri`,
`output_uri_getter n = output_dict[n][0].uri`. -/
def resolve_command_line_for_non_managed (container_spec : ContainerSpec)
    (input_dict : List (String × List Artifact))
    (output_dict : List (String × List Artifact))
    (exec_properties : List (String × PyVal)) :
    Except PyError (List String) :=
  resolve_command_line container_spec
    (fun input_name => pyDictGet exec_properties input_name)
    (fun input_name => do
      let artifacts ← pyDictGet input_dict input_name
      let a ← pyListFirst artifacts
      Except.ok (PyVal.str a.uri))
    (fun output_name => do
      let artifacts ← pyDictGet output_dict output_name
      let a ← pyListFirst artifacts
      Except.ok (PyVal.str a.uri))

/-- Modelled from the spec: `executor_spec.ExecutorContainerSpec` is not
under `src/`. Per the spec it is a concrete container invocation with
"`image` a plain string, `command` a fully resolved ordered sequence of
strings, `args` a fully resolved ordered sequence of strings (empty in
typed-placeholder mode)"; fields not passed to the constructor default to
the empty sequence. In free-text-template mode the same shape also carries
the unresolved template strings. -/
structure ExecutorContainerSpec where
  image : String
  command : List String := []
  args : List String := []
  deriving DecidableEq, Repr

/-- The `container_spec_tmpl` argument of `resolve_container_template`: the
code branches on `isinstance(container_spec_tmpl, structures.ContainerSpec)`
(typed-placeholder mode) versus an `ExecutorContainerSpec` holding Jinja2
template strings (free-text-template mode). -/
inductive ContainerSpecTmpl where
  | typed (spec : ContainerSpec)
  | freeText (spec : ExecutorContainerSpec)
  deriving DecidableEq, Repr

/-- The rendering `context` dictionary built at the top of
`resolve_container_template`: the three raw dictionaries under the keys
`input_dict`, `output_dict` and `exec_properties`. -/
structure RenderContext where
  input_dict : List (String × List Artifact)
  output_dict : List (String × List Artifact)
  exec_properties : List (String × PyVal)

/-- The external template engine (`jinja2.Template(text).render(context)`)
seen as a function from template text and context to rendered text, raising
on malformed templates. It is a parameter of the embedding, as the spec
treats the templating engine as an external collaborator. -/
def RenderEngine : Type :=
  String → RenderContext → Except PyError String

/-- Embeds `_render_text` (`container_common.py`, lines 75-76): one call
into the external template engine. -/
def _render_text (render : RenderEngine) (text : String)
    (context : RenderContext) : Except PyError String :=
  render text context

/-- The list comprehension `[_render_text(item, context) for item in items]`
of `_render_items`: render each element in order; the first raised exception
aborts the whole call. -/
def render_items_loop (render : RenderEngine) :
    List String → RenderContext → Except PyError (List String)
  | [], _ => Except.ok []
  | t :: ts, context =>
    match _render_text render t context with
    | Except.error e => Except.error e
    | Except.ok r =>
      match render_items_loop render ts context with
      | Except.error e => Except.error e
      | Except.ok tl => Except.ok (r :: tl)

/-- Embeds `_render_items` (`container_common.py`, lines 68-72):
`if not items: return items` short-circuits an empty (or absent, which the
Python truthiness test treats identically) field without rendering. -/
def _render_items (render : RenderEngine) (items : List String)
    (context : RenderContext) : Except PyError (List String) :=
  if items.isEmpty then Except.ok items
  else render_items_loop render items context

/-- Embeds `resolve_container_template` (`container_common.py`, lines
31-65): build the three-binding context, branch on the template's mode;
typed-placeholder mode delegates to `resolve_command_line_for_non_managed`
and passes the image through; free-text-template mode renders `image`,
`command` and `args` against the context. -/
def resolve_container_template (render : RenderEngine)
    (container_spec_tmpl : ContainerSpecTmpl)
    (input_dict : List (String × List Artifact))
    (output_dict : List (String × List Artifact))
    (exec_properties : List (String × PyVal)) :
    Except PyError ExecutorContainerSpec :=
  let context : RenderContext :=
    ⟨input_dict, output_dict, exec_properties⟩
  match container_spec_tmpl with
  | .typed container_spec =>
    match resolve_command_line_for_non_managed container_spec input_dict
        output_dict exec_properties with
    | Except.error e => Except.error e
    | Except.ok command =>
      Except.ok { image := container_spec.image, command := command }
  | .freeText tmpl =>
    match _render_text render tmpl.image context with
    | Except.error e => Except.error e
    | Except.ok image =>
      match _render_items render tmpl.command context with
      | Except.error e => Except.error e
      | Except.ok command =>
        match _render_items render tmpl.args context with
        | Except.error e => Except.error e
        | Except.ok args =>
          Except.ok { image := image, command := command, args := args }

/-- A Python value as seen by `to_swagger_dict`: atoms, lists, plain dicts,
swagger-generated objects (which expose an `attribute_map` from internal
field keys to external wire names and carry their field values as
attributes), and dict subclasses that also expose an `attribute_map` (a
value for which both the `hasattr(config, 'attribute_map')` test and the
`isinstance(config, dict)` test succeed). -/
inductive SwaggerVal where
  | str (s : String)
  | int (n : Int)
  | boolean (b : Bool)
  | pynone
  | list (xs : List SwaggerVal)
  | dict (entries : List (String × SwaggerVal))
  | obj (attribute_map : List (String × String))
      (attrs : List (String × SwaggerVal))
  | dictObj (attribute_map : List (String × String))
      (attrs : List (String × SwaggerVal))
      (entries : List (String × SwaggerVal))
  deriving Repr

/-- Python truthiness (`if getattr(config, key)`): empty strings, zero,
`False`, `None` and empty containers are falsy; a swagger object without
`__bool__`/`__len__` is always truthy; a dict subclass is truthy iff it has
entries. -/
def truthy : SwaggerVal → Bool
  | .str s => !s.isEmpty
  | .int n => n != 0
  | .boolean b => b
  | .pynone => false
  | .list xs => !xs.isEmpty
  | .dict es => !es.isEmpty
  | .obj _ _ => true
  | .dictObj _ _ es => !es.isEmpty

/-- Python `getattr(config, key)`: attribute lookup on the object's fields,
raising `AttributeError` when absent. -/
def pyGetAttr (attrs : List (String × SwaggerVal)) (key : String) :
    Except PyError SwaggerVal :=
  match attrs.lookup key with
  | some v => Except.ok v
  | none => Except.error PyError.attributeError

theorem sizeOf_lookup_lt {attrs : List (String × SwaggerVal)} {key : String}
    {v : SwaggerVal} (h : attrs.lookup key = some v) :
    sizeOf v < sizeOf attrs := by
  induction attrs with
  | nil => simp [List.lookup] at h
  | cons p rest ih =>
    rw [List.lookup] at h
    cases hk : (key == p.1) with
    | true =>
      rw [hk] at h
      simp at h
      subst h
      rcases p with ⟨a, b⟩
      simp
      omega
    | false =>
      rw [hk] at h
      simp at h
      have := ih h
      rcases p with ⟨a, b⟩
      simp at this ⊢
      omega

theorem sizeOf_pyGetAttr_lt {attrs : List (String × SwaggerVal)}
    {key : String} {v : SwaggerVal}
    (h : pyGetAttr attrs key = Except.ok v) : sizeOf v < sizeOf attrs := by
  unfold pyGetAttr at h
  cases hl : attrs.lookup key with
  | none => rw [hl] at h; exact absurd h (by simp)
  | some w =>
    rw [hl] at h
    cases h
    exact sizeOf_lookup_lt hl

mutual

/-- Embeds `to_swagger_dict` (`container_common.py`, lines 115-141): lists
are converted element-wise; a value exposing `attribute_map` becomes a dict
keyed by the external (wire) names, keeping only truthy fields, each value
converted recursively; plain dicts are converted value-wise; anything else
is returned unchanged. The `hasattr(config, 'attribute_map')` branch is
tested before the `isinstance(config, dict)` branch, so a dict subclass
exposing `attribute_map` takes the object path. -/
def to_swagger_dict : SwaggerVal → Except PyError SwaggerVal
  | .list xs =>
    match swagger_list xs with
    | Except.error e => Except.error e
    | Except.ok ys => Except.ok (SwaggerVal.list ys)
  | .obj attribute_map attrs =>
    match swagger_obj_fields attribute_map attrs with
    | Except.error e => Except.error e
    | Except.ok entries => Except.ok (SwaggerVal.dict entries)
  | .dictObj attribute_map attrs _entries =>
    match swagger_obj_fields attribute_map attrs with
    | Except.error e => Except.error e
    | Except.ok entries => Except.ok (SwaggerVal.dict entries)
  | .dict entries =>
    match swagger_dict_entries entries with
    | Except.error e => Except.error e
    | Except.ok es => Except.ok (SwaggerVal.dict es)
  | v => Except.ok v
termination_by v => sizeOf v
decreasing_by all_goals (simp_wf <;> omega)

/-- The list comprehension `[to_swagger_dict(x) for x in config]`. -/
def swagger_list : List SwaggerVal → Except PyError (List SwaggerVal)
  | [] => Except.ok []
  | x :: xs =>
    match to_swagger_dict x with
    | Except.error e => Except.error e
    | Except.ok y =>
      match swagger_list xs with
      | Except.error e => Except.error e
      | Except.ok ys => Except.ok (y :: ys)
termination_by xs => sizeOf xs
decreasing_by all_goals (simp_wf <;> omega)

/-- The dict comprehension over `config.attribute_map.items()`: for each
`(key, swagger_name)` pair in order, look the field up with `getattr`, skip
it when falsy, otherwise emit `(swagger_name, to_swagger_dict(field))`. -/
def swagger_obj_fields (attribute_map : List (String × String))
    (attrs : List (String × SwaggerVal)) :
    Except PyError (List (String × SwaggerVal)) :=
  match attribute_map with
  | [] => Except.ok []
  | (key, swagger_name) :: rest =>
    match h : pyGetAttr attrs key with
    | Except.error e => Except.error e
    | Except.ok field =>
      if truthy field then
        match to_swagger_dict field with
        | Except.error e => Except.error e
        | Except.ok converted =>
          match swagger_obj_fields rest attrs with
          | Except.error e => Except.error e
          | Except.ok tl => Except.ok ((swagger_name, converted) :: tl)
      else swagger_obj_fields rest attrs
termination_by sizeOf attrs + sizeOf attribute_map
decreasing_by
  all_goals simp_wf
  all_goals have hlt : sizeOf field < sizeOf attrs := sizeOf_pyGetAttr_lt h
  all_goals omega

/-- The dict comprehension `{key: to_swagger_dict(value) for key, value in
config.items()}`. -/
def swagger_dict_entries :
    List (String × SwaggerVal) → Except PyError (List (String × SwaggerVal))
  | [] => Except.ok []
  | (key, v) :: rest =>
    match to_swagger_dict v with
    | Except.error e => Except.error e
    | Except.ok w =>
      match swagger_dict_entries rest with
      | Except.error e => Except.error e
      | Except.ok tl => Except.ok ((key, w) :: tl)
termination_by es => sizeOf es
decreasing_by all_goals (simp_wf <;> omega)

end

/-- What the spec's per-token resolution table says a token must resolve to:
a literal string passes through unchanged; each placeholder variant resolves
through its getter; no other variant resolves. -/
def tokenResolvesTo
    (input_value_getter input_uri_getter output_uri_getter :
      String → Except PyError PyVal)
    (token : CommandlineArgumentType) (value : String) : Prop :=
  match token with
  | .str s => value = s
  | .inputValuePlaceholder n =>
    input_value_getter n = Except.ok (PyVal.str value)
  | .inputUriPlaceholder n =>
    input_uri_getter n = Except.ok (PyVal.str value)
  | .outputUriPlaceholder n =>
    output_uri_getter n = Except.ok (PyVal.str value)
  | .unknownVariant => False

theorem expand_ok_str_tokenResolvesTo
    {input_value_getter input_uri_getter output_uri_getter :
      String → Except PyError PyVal}
    {token : CommandlineArgumentType} {value : String}
    (h : expand_command_line_arg input_value_getter input_uri_getter
        output_uri_getter token = Except.ok (PyVal.str value)) :
    tokenResolvesTo input_value_getter input_uri_getter output_uri_getter
      token value := by
  cases token <;>
    simp_all [expand_command_line_arg, tokenResolvesTo]

theorem tokenResolvesTo_expand_ok
    {input_value_getter input_uri_getter output_uri_getter :
      String → Except PyError PyVal}
    {token : CommandlineArgumentType} {value : String}
    (h : tokenResolvesTo input_value_getter input_uri_getter
        output_uri_getter token value) :
    expand_command_line_arg input_value_getter input_uri_getter
      output_uri_getter token = Except.ok (PyVal.str value) := by
  cases token <;>
    simp_all [expand_command_line_arg, tokenResolvesTo]

theorem resolve_command_line_loop_ok
    {input_value_getter input_uri_getter output_uri_getter :
      String → Except PyError PyVal}
    {cmd : List CommandlineArgumentType} {out : List String}
    (h : resolve_command_line_loop input_value_getter input_uri_getter
        output_uri_getter cmd = Except.ok out) :
    out.length = cmd.length ∧
    ∀ i (hi : i < cmd.length) (ho : i < out.length),
      expand_command_line_arg input_value_getter input_uri_getter
        output_uri_getter (cmd.get ⟨i, hi⟩) =
          Except.ok (PyVal.str (out.get ⟨i, ho⟩)) := by
  induction cmd generalizing out with
  | nil =>
    rw [resolve_command_line_loop] at h
    cases h
    exact ⟨rfl, fun i hi => absurd hi (Nat.not_lt_zero i)⟩
  | cons arg rest ih =>
    rw [resolve_command_line_loop] at h
    cases hexp : expand_command_line_arg input_value_getter input_uri_getter
        output_uri_getter arg with
    | error e => rw [hexp] at h; exact absurd h (by simp)
    | ok v =>
      rw [hexp] at h
      cases v with
      | str s =>
        cases hrec : resolve_command_line_loop input_value_getter
            input_uri_getter output_uri_getter rest with
        | error e => rw [hrec] at h; exact absurd h (by simp)
        | ok tl =>
          rw [hrec] at h
          cases h
          obtain ⟨hlen, hpt⟩ := ih hrec
          refine ⟨by simp [hlen], ?_⟩
          intro i hi ho
          match i with
          | 0 => simpa using hexp
          | Nat.succ j =>
            simp only [List.get_cons_succ]
            exact hpt j (Nat.lt_of_succ_lt_succ hi) (Nat.lt_of_succ_lt_succ ho)
      | int n => exact absurd h (by simp)
      | boolean b => exact absurd h (by simp)
      | pynone => exact absurd h (by simp)

theorem resolve_command_line_loop_complete
    {input_value_getter input_uri_getter output_uri_getter :
      String → Except PyError PyVal}
    {cmd : List CommandlineArgumentType} {out : List String}
    (hlen : out.length = cmd.length)
    (hpt : ∀ i (hi : i < cmd.length) (ho : i < out.length),
      expand_command_line_arg input_value_getter input_uri_getter
        output_uri_getter (cmd.get ⟨i, hi⟩) =
          Except.ok (PyVal.str (out.get ⟨i, ho⟩))) :
    resolve_command_line_loop input_value_getter input_uri_getter
      output_uri_getter cmd = Except.ok out := by
  induction cmd generalizing out with
  | nil =>
    cases out with
    | nil => rw [resolve_command_line_loop]
    | cons s tl => simp at hlen
  | cons arg rest ih =>
    cases out with
    | nil => simp at hlen
    | cons s tl =>
      have h0 : expand_command_line_arg input_value_getter input_uri_getter
          output_uri_getter arg = Except.ok (PyVal.str s) := by
        simpa using hpt 0 (by simp) (by simp)
      have hrec : resolve_command_line_loop input_value_getter
          input_uri_getter output_uri_getter rest = Except.ok tl := by
        refine ih (by simpa using hlen) ?_
        intro j hj hj'
        simpa using hpt (j + 1) (by simpa using Nat.succ_lt_succ hj)
          (by simpa using Nat.succ_lt_succ hj')
      rw [resolve_command_line_loop, h0, hrec]

/-- C1: in typed-placeholder mode, `resolve_command_line` returns one string
per command token, in order: a literal token passes through unchanged, an
`InputValuePlaceholder` resolves through `input_value_getter`, an
`InputUriPlaceholder` through `input_uri_getter`, an `OutputUriPlaceholder`
through `output_uri_getter` (full characterization, both directions), and an
absent (`None`) or empty command field yields the empty list. -/
theorem resolve_command_line_spec :
    (∀ (container_spec : ContainerSpec)
      (input_value_getter input_uri_getter output_uri_getter :
        String → Except PyError PyVal) (out : List String),
      resolve_command_line container_spec input_value_getter input_uri_getter
          output_uri_getter = Except.ok out ↔
        (out.length = (container_spec.command.getD []).length ∧
          ∀ i (hi : i < (container_spec.command.getD []).length)
            (ho : i < out.length),
            tokenResolvesTo input_value_getter input_uri_getter
              output_uri_getter ((container_spec.command.getD []).get ⟨i, hi⟩)
              (out.get ⟨i, ho⟩))) ∧
    (∀ (image : String)
      (input_value_getter input_uri_getter output_uri_getter :
        String → Except PyError PyVal),
      resolve_command_line ⟨image, none⟩ input_value_getter input_uri_getter
          output_uri_getter = Except.ok [] ∧
      resolve_command_line ⟨image, some []⟩ input_value_getter
          input_uri_getter output_uri_getter = Except.ok []) := by
  constructor
  · intro container_spec ivg iug oug out
    constructor
    · intro h
      obtain ⟨hlen, hpt⟩ := resolve_command_line_loop_ok h
      exact ⟨hlen, fun i hi ho => expand_ok_str_tokenResolvesTo (hpt i hi ho)⟩
    · intro ⟨hlen, hpt⟩
      exact resolve_command_line_loop_complete hlen
        (fun i hi ho => tokenResolvesTo_expand_ok (hpt i hi ho))
  · intro image ivg iug oug
    exact ⟨rfl, rfl⟩

/-- C1 witness: a concrete spec with a literal and one placeholder of each
kind resolves to the expected four strings. -/
theorem resolve_command_line_spec_witness :
    (["run", "10", "gs://in", "gs://out"] : List String).length =
      ((some [CommandlineArgumentType.str "run",
          CommandlineArgumentType.inputValuePlaceholder "epochs",
          CommandlineArgumentType.inputUriPlaceholder "data",
          CommandlineArgumentType.outputUriPlaceholder "model"] :
            Option (List CommandlineArgumentType)).getD []).length ∧
    ∀ i (hi : i < ((some [CommandlineArgumentType.str "run",
          CommandlineArgumentType.inputValuePlaceholder "epochs",
          CommandlineArgumentType.inputUriPlaceholder "data",
          CommandlineArgumentType.outputUriPlaceholder "model"] :
            Option (List CommandlineArgumentType)).getD []).length)
      (ho : i < (["run", "10", "gs://in", "gs://out"] : List String).length),
      tokenResolvesTo (fun _ => Except.ok (PyVal.str "10"))
        (fun _ => Except.ok (PyVal.str "gs://in"))
        (fun _ => Except.ok (PyVal.str "gs://out"))
        (((some [CommandlineArgumentType.str "run",
            CommandlineArgumentType.inputValuePlaceholder "epochs",
            CommandlineArgumentType.inputUriPlaceholder "data",
            CommandlineArgumentType.outputUriPlaceholder "model"] :
              Option (List CommandlineArgumentType)).getD []).get ⟨i, hi⟩)
        ((["run", "10", "gs://in", "gs://out"] : List String).get ⟨i, ho⟩) :=
  (resolve_command_line_spec.1
    ⟨"img", some [CommandlineArgumentType.str "run",
      CommandlineArgumentType.inputValuePlaceholder "epochs",
      CommandlineArgumentType.inputUriPlaceholder "data",
      CommandlineArgumentType.outputUriPlaceholder "model"]⟩
    (fun _ => Except.ok (PyVal.str "10"))
    (fun _ => Except.ok (PyVal.str "gs://in"))
    (fun _ => Except.ok (PyVal.str "gs://out"))
    ["run", "10", "gs://in", "gs://out"]).mp rfl

/-- C4: a command made only of literal string tokens resolves to exactly
those strings, whatever the three getters are (identity law). -/
theorem resolve_command_line_literal_identity
    (image : String) (ss : List String)
    (input_value_getter input_uri_getter output_uri_getter :
      String → Except PyError PyVal) :
    resolve_command_line ⟨image, some (ss.map CommandlineArgumentType.str)⟩
      input_value_getter input_uri_getter output_uri_getter =
        Except.ok ss := by
  show resolve_command_line_loop input_value_getter input_uri_getter
    output_uri_getter (ss.map CommandlineArgumentType.str) = Except.ok ss
  induction ss with
  | nil => simp [resolve_command_line_loop]
  | cons s rest ih =>
    simp only [List.map_cons, resolve_command_line_loop,
      expand_command_line_arg, ih]

theorem resolve_command_line_loop_append_error
    {input_value_getter input_uri_getter output_uri_getter :
      String → Except PyError PyVal}
    {pre : List CommandlineArgumentType}
    (hpre : ∀ t ∈ pre, ∃ s, expand_command_line_arg input_value_getter
      input_uri_getter output_uri_getter t = Except.ok (PyVal.str s))
    {suffix : List CommandlineArgumentType} {e : PyError}
    (hsuf : resolve_command_line_loop input_value_getter input_uri_getter
      output_uri_getter suffix = Except.error e) :
    resolve_command_line_loop input_value_getter input_uri_getter
      output_uri_getter (pre ++ suffix) = Except.error e := by
  induction pre with
  | nil => simpa using hsuf
  | cons t pre' ih =>
    obtain ⟨s, hs⟩ := hpre t (List.mem_cons_self t pre')
    have ih' := ih (fun u hu => hpre u (List.mem_cons_of_mem t hu))
    rw [List.cons_append, resolve_command_line_loop, hs, ih']

/-- C5: a command token that is neither a literal string nor one of the
three known placeholder variants makes `resolve_command_line` fail with
`TypeError`, provided every earlier token resolves to a string; the call
yields the error and no partial list. -/
theorem resolve_command_line_unknown_variant_type_error
    (image : String)
    (input_value_getter input_uri_getter output_uri_getter :
      String → Except PyError PyVal)
    (pre rest : List CommandlineArgumentType)
    (hpre : ∀ t ∈ pre, ∃ s, expand_command_line_arg input_value_getter
      input_uri_getter output_uri_getter t = Except.ok (PyVal.str s)) :
    resolve_command_line
      ⟨image, some (pre ++ CommandlineArgumentType.unknownVariant :: rest)⟩
      input_value_getter input_uri_getter output_uri_getter =
        Except.error PyError.typeError := by
  show resolve_command_line_loop input_value_getter input_uri_getter
    output_uri_getter (pre ++ CommandlineArgumentType.unknownVariant :: rest)
    = Except.error PyError.typeError
  refine resolve_command_line_loop_append_error hpre ?_
  rw [resolve_command_line_loop]
  rfl

/-- C5 witness: `["run", <unknown variant>, "x"]` resolves to a `TypeError`
error value. -/
theorem resolve_command_line_unknown_variant_type_error_witness :
    resolve_command_line
      ⟨"img", some ([CommandlineArgumentType.str "run"] ++
        CommandlineArgumentType.unknownVariant ::
          [CommandlineArgumentType.str "x"])⟩
      (fun _ => Except.ok (PyVal.str "v"))
      (fun _ => Except.ok (PyVal.str "v"))
      (fun _ => Except.ok (PyVal.str "v")) =
        Except.error PyError.typeError :=
  resolve_command_line_unknown_variant_type_error "img"
    (fun _ => Except.ok (PyVal.str "v"))
    (fun _ => Except.ok (PyVal.str "v"))
    (fun _ => Except.ok (PyVal.str "v"))
    [CommandlineArgumentType.str "run"] [CommandlineArgumentType.str "x"]
    (by
      intro t ht
      rw [List.mem_singleton] at ht
      exact ⟨"run", by rw [ht]; rfl⟩)

/-- C9: when any getter returns a non-string value for any placeholder
token (every earlier token resolving to a string), `resolve_command_line`
fails with `AssertionError` — a failure mode that is neither a `LookupError`
nor a `TypeError` — instead of including the non-string value in the
result; on success the embedding's return type `List String` makes every
returned element a string. The first conjunct covers an arbitrary offending
token whose expansion (that is, whose getter) returned the non-string
value; the next three specialize it to each placeholder variant and its
getter. -/
theorem resolve_command_line_non_string_assertion :
    (∀ (image : String)
      (input_value_getter input_uri_getter output_uri_getter :
        String → Except PyError PyVal)
      (pre rest : List CommandlineArgumentType)
      (tok : CommandlineArgumentType) (v : PyVal),
      (∀ t ∈ pre, ∃ s, expand_command_line_arg input_value_getter
        input_uri_getter output_uri_getter t = Except.ok (PyVal.str s)) →
      expand_command_line_arg input_value_getter input_uri_getter
        output_uri_getter tok = Except.ok v →
      (∀ s, v ≠ PyVal.str s) →
      resolve_command_line ⟨image, some (pre ++ tok :: rest)⟩
        input_value_getter input_uri_getter output_uri_getter =
          Except.error PyError.assertionError) ∧
    (∀ (image : String)
      (input_value_getter input_uri_getter output_uri_getter :
        String → Except PyError PyVal)
      (pre rest : List CommandlineArgumentType) (n : String) (v : PyVal),
      (∀ t ∈ pre, ∃ s, expand_command_line_arg input_value_getter
        input_uri_getter output_uri_getter t = Except.ok (PyVal.str s)) →
      input_value_getter n = Except.ok v →
      (∀ s, v ≠ PyVal.str s) →
      resolve_command_line
        ⟨image, some (pre ++
          CommandlineArgumentType.inputValuePlaceholder n :: rest)⟩
        input_value_getter input_uri_getter output_uri_getter =
          Except.error PyError.assertionError) ∧
    (∀ (image : String)
      (input_value_getter input_uri_getter output_uri_getter :
        String → Except PyError PyVal)
      (pre rest : List CommandlineArgumentType) (n : String) (v : PyVal),
      (∀ t ∈ pre, ∃ s, expand_command_line_arg input_value_getter
        input_uri_getter output_uri_getter t = Except.ok (PyVal.str s)) →
      input_uri_getter n = Except.ok v →
      (∀ s, v ≠ PyVal.str s) →
      resolve_command_line
        ⟨image, some (pre ++
          CommandlineArgumentType.inputUriPlaceholder n :: rest)⟩
        input_value_getter input_uri_getter output_uri_getter =
          Except.error PyError.assertionError) ∧
    (∀ (image : String)
      (input_value_getter input_uri_getter output_uri_getter :
        String → Except PyError PyVal)
      (pre rest : List CommandlineArgumentType) (n : String) (v : PyVal),
      (∀ t ∈ pre, ∃ s, expand_command_line_arg input_value_getter
        input_uri_getter output_uri_getter t = Except.ok (PyVal.str s)) →
      output_uri_getter n = Except.ok v →
      (∀ s, v ≠ PyVal.str s) →
      resolve_command_line
        ⟨image, some (pre ++
          CommandlineArgumentType.outputUriPlaceholder n :: rest)⟩
        input_value_getter input_uri_getter output_uri_getter =
          Except.error PyError.assertionError) ∧
    PyError.assertionError.isLookupError = false ∧
    PyError.assertionError ≠ PyError.typeError := by
  have hgen : ∀ (image : String)
      (ivg iug oug : String → Except PyError PyVal)
      (pre rest : List CommandlineArgumentType)
      (tok : CommandlineArgumentType) (v : PyVal),
      (∀ t ∈ pre, ∃ s, expand_command_line_arg ivg iug oug t =
        Except.ok (PyVal.str s)) →
      expand_command_line_arg ivg iug oug tok = Except.ok v →
      (∀ s, v ≠ PyVal.str s) →
      resolve_command_line ⟨image, some (pre ++ tok :: rest)⟩ ivg iug oug =
        Except.error PyError.assertionError := by
    intro image ivg iug oug pre rest tok v hpre hv hns
    show resolve_command_line_loop ivg iug oug (pre ++ tok :: rest) =
      Except.error PyError.assertionError
    refine resolve_command_line_loop_append_error hpre ?_
    rw [resolve_command_line_loop, hv]
    cases v with
    | str s => exact absurd rfl (hns s)
    | int m => rfl
    | boolean b => rfl
    | pynone => rfl
  refine ⟨hgen, ?_, ?_, ?_, rfl, by simp⟩
  · intro image ivg iug oug pre rest n v hpre hv hns
    exact hgen image ivg iug oug pre rest
      (CommandlineArgumentType.inputValuePlaceholder n) v hpre hv hns
  · intro image ivg iug oug pre rest n v hpre hv hns
    exact hgen image ivg iug oug pre rest
      (CommandlineArgumentType.inputUriPlaceholder n) v hpre hv hns
  · intro image ivg iug oug pre rest n v hpre hv hns
    exact hgen image ivg iug oug pre rest
      (CommandlineArgumentType.outputUriPlaceholder n) v hpre hv hns

/-- C9 witness: the input-URI getter returning the integer 7 for the only
(URI) placeholder makes resolution fail with `AssertionError`. -/
theorem resolve_command_line_non_string_assertion_witness :
    resolve_command_line
      ⟨"img", some ([] ++
        CommandlineArgumentType.inputUriPlaceholder "data" :: [])⟩
      (fun _ => Except.ok (PyVal.str "u"))
      (fun _ => Except.ok (PyVal.int 7))
      (fun _ => Except.ok (PyVal.str "u")) =
        Except.error PyError.assertionError :=
  resolve_command_line_non_string_assertion.2.2.1 "img"
    (fun _ => Except.ok (PyVal.str "u"))
    (fun _ => Except.ok (PyVal.int 7))
    (fun _ => Except.ok (PyVal.str "u"))
    [] [] "data" (PyVal.int 7)
    (by intro t ht; exact absurd ht (List.not_mem_nil t))
    rfl
    (by intro s h; exact PyVal.noConfusion h)

/-- C2: `resolve_command_line_for_non_managed` wires the getters so that an
`InputValuePlaceholder n` resolves to `exec_properties[n]` (a `KeyError`,
which is a `LookupError`, when `n` is absent), an `InputUriPlaceholder n` to
`input_dict[n][0].uri`, an `OutputUriPlaceholder n` to
`output_dict[n][0].uri`, and a referenced name whose artifact list is empty
raises `IndexError` (also a `LookupError`). -/
theorem resolve_for_non_managed_getter_wiring :
    ∀ (image n : String)
      (input_dict output_dict : List (String × List Artifact))
      (exec_properties : List (String × PyVal)),
      (∀ s, exec_properties.lookup n = some (PyVal.str s) →
        resolve_command_line_for_non_managed
          ⟨image, some [CommandlineArgumentType.inputValuePlaceholder n]⟩
          input_dict output_dict exec_properties = Except.ok [s]) ∧
      (exec_properties.lookup n = none →
        resolve_command_line_for_non_managed
          ⟨image, some [CommandlineArgumentType.inputValuePlaceholder n]⟩
          input_dict output_dict exec_properties =
            Except.error (PyError.keyError n) ∧
        (PyError.keyError n).isLookupError = true) ∧
      (∀ a arest, input_dict.lookup n = some (a :: arest) →
        resolve_command_line_for_non_managed
          ⟨image, some [CommandlineArgumentType.inputUriPlaceholder n]⟩
          input_dict output_dict exec_properties = Except.ok [a.uri]) ∧
      (input_dict.lookup n = some [] →
        resolve_command_line_for_non_managed
          ⟨image, some [CommandlineArgumentType.inputUriPlaceholder n]⟩
          input_dict output_dict exec_properties =
            Except.error PyError.indexError ∧
        PyError.indexError.isLookupError = true) ∧
      (∀ a arest, output_dict.lookup n = some (a :: arest) →
        resolve_command_line_for_non_managed
          ⟨image, some [CommandlineArgumentType.outputUriPlaceholder n]⟩
          input_dict output_dict exec_properties = Except.ok [a.uri]) ∧
      (output_dict.lookup n = some [] →
        resolve_command_line_for_non_managed
          ⟨image, some [CommandlineArgumentType.outputUriPlaceholder n]⟩
          input_dict output_dict exec_properties =
            Except.error PyError.indexError ∧
        PyError.indexError.isLookupError = true) := by
  intro image n input_dict output_dict exec_properties
  refine ⟨?_, ?_, ?_, ?_, ?_, ?_⟩
  · intro s h
    simp [resolve_command_line_for_non_managed, resolve_command_line,
      resolve_command_line_loop, expand_command_line_arg, pyDictGet, h]
  · intro h
    exact ⟨by simp [resolve_command_line_for_non_managed,
      resolve_command_line, resolve_command_line_loop,
      expand_command_line_arg, pyDictGet, h], rfl⟩
  · intro a arest h
    simp [resolve_command_line_for_non_managed, resolve_command_line,
      resolve_command_line_loop, expand_command_line_arg, pyDictGet,
      pyListFirst, h, Except.instMonad, Except.bind]
  · intro h
    exact ⟨by simp [resolve_command_line_for_non_managed,
      resolve_command_line, resolve_command_line_loop,
      expand_command_line_arg, pyDictGet, pyListFirst, h, Except.instMonad, Except.bind], rfl⟩
  · intro a arest h
    simp [resolve_command_line_for_non_managed, resolve_command_line,
      resolve_command_line_loop, expand_command_line_arg, pyDictGet,
      pyListFirst, h, Except.instMonad, Except.bind]
  · intro h
    exact ⟨by simp [resolve_command_line_for_non_managed,
      resolve_command_line, resolve_command_line_loop,
      expand_command_line_arg, pyDictGet, pyListFirst, h, Except.instMonad, Except.bind], rfl⟩

/-- C2 witness: concrete dictionaries exercising the present-value case of
the wiring (`exec_properties = {"x": "v"}` resolves the placeholder to
`"v"`). -/
theorem resolve_for_non_managed_getter_wiring_witness :
    resolve_command_line_for_non_managed
      ⟨"img", some [CommandlineArgumentType.inputValuePlaceholder "x"]⟩
      [("a", [Artifact.mk "gs://b"])] [("o", [Artifact.mk "gs://c"])]
      [("x", PyVal.str "v")] = Except.ok ["v"] :=
  (resolve_for_non_managed_getter_wiring "img" "x"
    [("a", [Artifact.mk "gs://b"])] [("o", [Artifact.mk "gs://c"])]
    [("x", PyVal.str "v")]).1 "v" rfl

/-- C3: in typed-placeholder mode `resolve_container_template` passes the
template's image through unchanged, sets `command` to the output of
`resolve_command_line_for_non_managed` over the wired dictionary getters,
and leaves `args` as the empty sequence, for every template engine. -/
theorem resolve_container_template_typed
    (render : RenderEngine) (container_spec : ContainerSpec)
    (input_dict output_dict : List (String × List Artifact))
    (exec_properties : List (String × PyVal)) :
    resolve_container_template render (ContainerSpecTmpl.typed container_spec)
      input_dict output_dict exec_properties =
      match resolve_command_line_for_non_managed container_spec input_dict
          output_dict exec_properties with
      | Except.error e => Except.error e
      | Except.ok command =>
        Except.ok ⟨container_spec.image, command, []⟩ := by
  rw [resolve_container_template]

theorem render_items_loop_ok
    {render : RenderEngine} {items out : List String}
    {context : RenderContext}
    (h : render_items_loop render items context = Except.ok out) :
    out.length = items.length ∧
    ∀ i (hi : i < items.length) (ho : i < out.length),
      render (items.get ⟨i, hi⟩) context = Except.ok (out.get ⟨i, ho⟩) := by
  induction items generalizing out with
  | nil =>
    rw [render_items_loop] at h
    cases h
    exact ⟨rfl, fun i hi => absurd hi (Nat.not_lt_zero i)⟩
  | cons t rest ih =>
    rw [render_items_loop] at h
    cases ht : _render_text render t context with
    | error e => rw [ht] at h; exact absurd h (by simp)
    | ok r =>
      rw [ht] at h
      cases hrec : render_items_loop render rest context with
      | error e => rw [hrec] at h; exact absurd h (by simp)
      | ok tl =>
        rw [hrec] at h
        cases h
        obtain ⟨hlen, hpt⟩ := ih hrec
        refine ⟨by simp [hlen], ?_⟩
        intro i hi ho
        match i with
        | 0 => simpa using ht
        | Nat.succ j =>
          simp only [List.get_cons_succ]
          exact hpt j (Nat.lt_of_succ_lt_succ hi) (Nat.lt_of_succ_lt_succ ho)

/-- C6: in free-text-template mode, an empty (or absent — Python truthiness
treats both alike) `command`/`args` field short-circuits to an empty result
for every template engine, even one that fails on every input, so the
renderer is never consulted; a non-empty field is rendered element-wise
against the three-binding context, preserving order. -/
theorem render_items_empty_and_elementwise :
    (∀ (render : RenderEngine) (context : RenderContext),
      _render_items render [] context = Except.ok []) ∧
    (∀ (render : RenderEngine) (context : RenderContext)
      (items : List String), items ≠ [] →
      _render_items render items context =
        render_items_loop render items context) ∧
    (∀ (render : RenderEngine) (tmpl : ExecutorContainerSpec)
      (input_dict output_dict : List (String × List Artifact))
      (exec_properties : List (String × PyVal))
      (res : ExecutorContainerSpec),
      resolve_container_template render (ContainerSpecTmpl.freeText tmpl)
          input_dict output_dict exec_properties = Except.ok res →
        (res.command.length = tmpl.command.length ∧
          ∀ i (hi : i < tmpl.command.length) (ho : i < res.command.length),
            render (tmpl.command.get ⟨i, hi⟩)
              ⟨input_dict, output_dict, exec_properties⟩ =
                Except.ok (res.command.get ⟨i, ho⟩)) ∧
        (res.args.length = tmpl.args.length ∧
          ∀ i (hi : i < tmpl.args.length) (ho : i < res.args.length),
            render (tmpl.args.get ⟨i, hi⟩)
              ⟨input_dict, output_dict, exec_properties⟩ =
                Except.ok (res.args.get ⟨i, ho⟩))) := by
  refine ⟨fun render context => rfl, ?_, ?_⟩
  · intro render context items hne
    rw [_render_items, if_neg (by simpa using hne)]
  · intro render tmpl input_dict output_dict exec_properties res h
    rw [resolve_container_template] at h
    cases himg : _render_text render tmpl.image
        ⟨input_dict, output_dict, exec_properties⟩ with
    | error e => rw [himg] at h; exact absurd h (by simp)
    | ok image =>
      rw [himg] at h
      cases hcmd : _render_items render tmpl.command
          ⟨input_dict, output_dict, exec_properties⟩ with
      | error e => rw [hcmd] at h; exact absurd h (by simp)
      | ok command =>
        rw [hcmd] at h
        cases hargs : _render_items render tmpl.args
            ⟨input_dict, output_dict, exec_properties⟩ with
        | error e => rw [hargs] at h; exact absurd h (by simp)
        | ok args =>
          rw [hargs] at h
          cases h
          have render_items_char :
              ∀ (items out : List String),
                _render_items render items
                    ⟨input_dict, output_dict, exec_properties⟩ =
                  Except.ok out →
                out.length = items.length ∧
                ∀ i (hi : i < items.length) (ho : i < out.length),
                  render (items.get ⟨i, hi⟩)
                    ⟨input_dict, output_dict, exec_properties⟩ =
                      Except.ok (out.get ⟨i, ho⟩) := by
            intro items out hio
            rw [_render_items] at hio
            by_cases he : items.isEmpty
            · rw [if_pos he] at hio
              cases hio
              rw [List.isEmpty_iff] at he
              subst he
              exact ⟨rfl, fun i hi => absurd hi (Nat.not_lt_zero i)⟩
            · rw [if_neg he] at hio
              exact render_items_loop_ok hio
          exact ⟨render_items_char tmpl.command command hcmd,
            render_items_char tmpl.args args hargs⟩

/-- C6 witness: with a template engine that fails on every string, empty
items still render to the empty list, and a non-empty field equals the
element-wise loop. -/
theorem render_items_empty_and_elementwise_witness :
    _render_items (fun _ _ => Except.error PyError.typeError) []
      ⟨[], [], []⟩ = Except.ok [] ∧
    _render_items (fun t _ => Except.ok t) ["a", "b"] ⟨[], [], []⟩ =
      render_items_loop (fun t _ => Except.ok t) ["a", "b"] ⟨[], [], []⟩ :=
  ⟨render_items_empty_and_elementwise.1
      (fun _ _ => Except.error PyError.typeError) ⟨[], [], []⟩,
    render_items_empty_and_elementwise.2.1 (fun t _ => Except.ok t)
      ⟨[], [], []⟩ ["a", "b"] (by simp)⟩

/-- The spec's description of the attribute-map branch, as a relation: the
output entries are obtained from the name-translation pairs in order; each
field is read through `getattr`; a falsy field contributes nothing; a truthy
field contributes its external (wire) name paired with its recursively
converted value. -/
def objFieldsSpec (attrs : List (String × SwaggerVal)) :
    List (String × String) → List (String × SwaggerVal) → Prop
  | [], entries => entries = []
  | (key, swagger_name) :: rest, entries =>
    ∃ field, attrs.lookup key = some field ∧
      (if truthy field then
        ∃ converted tl, to_swagger_dict field = Except.ok converted ∧
          entries = (swagger_name, converted) :: tl ∧
          objFieldsSpec attrs rest tl
      else objFieldsSpec attrs rest entries)

theorem swagger_list_ok {xs ys : List SwaggerVal}
    (h : swagger_list xs = Except.ok ys) :
    ys.length = xs.length ∧
    ∀ i (hi : i < xs.length) (ho : i < ys.length),
      to_swagger_dict (xs.get ⟨i, hi⟩) = Except.ok (ys.get ⟨i, ho⟩) := by
  induction xs generalizing ys with
  | nil =>
    rw [swagger_list] at h
    cases h
    exact ⟨rfl, fun i hi => absurd hi (Nat.not_lt_zero i)⟩
  | cons x rest ih =>
    rw [swagger_list] at h
    cases hx : to_swagger_dict x with
    | error e => rw [hx] at h; exact absurd h (by simp)
    | ok y =>
      rw [hx] at h
      cases hrec : swagger_list rest with
      | error e => rw [hrec] at h; exact absurd h (by simp)
      | ok tl =>
        rw [hrec] at h
        cases h
        obtain ⟨hlen, hpt⟩ := ih hrec
        refine ⟨by simp [hlen], ?_⟩
        intro i hi ho
        match i with
        | 0 => simpa using hx
        | Nat.succ j =>
          simp only [List.get_cons_succ]
          exact hpt j (Nat.lt_of_succ_lt_succ hi) (Nat.lt_of_succ_lt_succ ho)

theorem swagger_dict_entries_ok
    {es es' : List (String × SwaggerVal)}
    (h : swagger_dict_entries es = Except.ok es') :
    es'.map Prod.fst = es.map Prod.fst ∧
    ∀ i (hi : i < es.length) (ho : i < es'.length),
      to_swagger_dict (es.get ⟨i, hi⟩).2 =
        Except.ok (es'.get ⟨i, ho⟩).2 := by
  induction es generalizing es' with
  | nil =>
    rw [swagger_dict_entries] at h
    cases h
    exact ⟨rfl, fun i hi => absurd hi (Nat.not_lt_zero i)⟩
  | cons p rest ih =>
    rcases p with ⟨key, v⟩
    rw [swagger_dict_entries] at h
    cases hv : to_swagger_dict v with
    | error e => rw [hv] at h; exact absurd h (by simp)
    | ok w =>
      rw [hv] at h
      cases hrec : swagger_dict_entries rest with
      | error e => rw [hrec] at h; exact absurd h (by simp)
      | ok tl =>
        rw [hrec] at h
        cases h
        obtain ⟨hmap, hpt⟩ := ih hrec
        refine ⟨by simp [hmap], ?_⟩
        intro i hi ho
        match i with
        | 0 => simpa using hv
        | Nat.succ j =>
          simp only [List.get_cons_succ]
          exact hpt j (Nat.lt_of_succ_lt_succ hi) (Nat.lt_of_succ_lt_succ ho)

theorem swagger_obj_fields_spec
    {attribute_map : List (String × String)}
    {attrs entries : List (String × SwaggerVal)}
    (h : swagger_obj_fields attribute_map attrs = Except.ok entries) :
    objFieldsSpec attrs attribute_map entries := by
  induction attribute_map generalizing entries with
  | nil =>
    rw [swagger_obj_fields] at h
    cases h
    rfl
  | cons p rest ih =>
    rcases p with ⟨key, swagger_name⟩
    rw [swagger_obj_fields] at h
    split at h
    · exact absurd h (by simp)
    · rename_i field hg
      have hlook : attrs.lookup key = some field := by
        unfold pyGetAttr at hg
        cases hl : attrs.lookup key with
        | none => rw [hl] at hg; exact absurd hg (by simp)
        | some w => rw [hl] at hg; cases hg; rfl
      simp only [objFieldsSpec]
      split at h
      · rename_i ht
        split at h
        · exact absurd h (by simp)
        · rename_i converted hc
          split at h
          · exact absurd h (by simp)
          · rename_i tl hrec
            cases h
            refine ⟨field, hlook, ?_⟩
            rw [if_pos ht]
            exact ⟨converted, tl, hc, rfl, ih hrec⟩
      · rename_i ht
        refine ⟨field, hlook, ?_⟩
        rw [if_neg ht]
        exact ih h

/-- C8: `to_swagger_dict` maps lists element-wise in order; converts a value
exposing an `attribute_map` into a mapping keyed by the external (wire)
names with recursively converted values, omitting falsy fields (the
`objFieldsSpec` relation); converts plain mappings value-wise with all keys
kept in order; and returns atomic values unchanged. -/
theorem to_swagger_dict_spec :
    (∀ (xs ys : List SwaggerVal),
      to_swagger_dict (SwaggerVal.list xs) =
          Except.ok (SwaggerVal.list ys) →
        ys.length = xs.length ∧
        ∀ i (hi : i < xs.length) (ho : i < ys.length),
          to_swagger_dict (xs.get ⟨i, hi⟩) = Except.ok (ys.get ⟨i, ho⟩)) ∧
    (∀ (attribute_map : List (String × String))
      (attrs : List (String × SwaggerVal)) (out : SwaggerVal),
      to_swagger_dict (SwaggerVal.obj attribute_map attrs) = Except.ok out →
        ∃ entries, out = SwaggerVal.dict entries ∧
          objFieldsSpec attrs attribute_map entries) ∧
    (∀ (es : List (String × SwaggerVal)) (out : SwaggerVal),
      to_swagger_dict (SwaggerVal.dict es) = Except.ok out →
        ∃ es', out = SwaggerVal.dict es' ∧
          es'.map Prod.fst = es.map Prod.fst ∧
          ∀ i (hi : i < es.length) (ho : i < es'.length),
            to_swagger_dict (es.get ⟨i, hi⟩).2 =
              Except.ok (es'.get ⟨i, ho⟩).2) ∧
    (∀ s, to_swagger_dict (SwaggerVal.str s) =
      Except.ok (SwaggerVal.str s)) ∧
    (∀ n, to_swagger_dict (SwaggerVal.int n) =
      Except.ok (SwaggerVal.int n)) ∧
    (∀ b, to_swagger_dict (SwaggerVal.boolean b) =
      Except.ok (SwaggerVal.boolean b)) ∧
    to_swagger_dict SwaggerVal.pynone = Except.ok SwaggerVal.pynone := by
  refine ⟨?_, ?_, ?_, fun s => by rw [to_swagger_dict] <;> simp,
    fun n => by rw [to_swagger_dict] <;> simp,
    fun b => by rw [to_swagger_dict] <;> simp,
    by rw [to_swagger_dict] <;> simp⟩
  · intro xs ys h
    rw [to_swagger_dict] at h
    split at h
    · exact absurd h (by simp)
    · rename_i ys' hys
      rw [Except.ok.injEq, SwaggerVal.list.injEq] at h
      subst h
      exact swagger_list_ok hys
  · intro attribute_map attrs out h
    rw [to_swagger_dict] at h
    split at h
    · exact absurd h (by simp)
    · rename_i entries hentries
      cases h
      exact ⟨entries, rfl, swagger_obj_fields_spec hentries⟩
  · intro es out h
    rw [to_swagger_dict] at h
    split at h
    · exact absurd h (by simp)
    · rename_i es' hes
      cases h
      exact ⟨es', rfl, swagger_dict_entries_ok hes⟩

/-- C8 witness: an object whose only field translates to wire name
`"external"` and holds the falsy value `""` flattens to the empty mapping. -/
theorem to_swagger_dict_spec_witness :
    ∃ entries, SwaggerVal.dict [] = SwaggerVal.dict entries ∧
      objFieldsSpec [("internal", SwaggerVal.str "")]
        [("internal", "external")] entries :=
  to_swagger_dict_spec.2.1 [("internal", "external")]
    [("internal", SwaggerVal.str "")] (SwaggerVal.dict [])
    (by rw [to_swagger_dict, swagger_obj_fields]
        simp [pyGetAttr, List.lookup, truthy, swagger_obj_fields,
          show "".isEmpty = true from rfl])

/-- C10: on a plain dict (no `attribute_map`), `to_swagger_dict` preserves
every key in order — including keys whose values are falsy — so the
falsy-field omission applies only to the `attribute_map` branch; and a dict
subclass that also exposes an `attribute_map` is handled exactly as the
`attribute_map` branch (that branch takes precedence over the dict branch). -/
theorem to_swagger_dict_plain_dict_keys :
    (∀ (es es' : List (String × SwaggerVal)),
      to_swagger_dict (SwaggerVal.dict es) =
          Except.ok (SwaggerVal.dict es') →
        es'.map Prod.fst = es.map Prod.fst) ∧
    (∀ (attribute_map : List (String × String))
      (attrs es : List (String × SwaggerVal)),
      to_swagger_dict (SwaggerVal.dictObj attribute_map attrs es) =
        to_swagger_dict (SwaggerVal.obj attribute_map attrs)) := by
  constructor
  · intro es es' h
    rw [to_swagger_dict] at h
    split at h
    · exact absurd h (by simp)
    · rename_i es'' hes
      rw [Except.ok.injEq, SwaggerVal.dict.injEq] at h
      subst h
      exact (swagger_dict_entries_ok hes).1
  · intro attribute_map attrs es
    rw [to_swagger_dict, to_swagger_dict]

/-- C10 witness: a plain dict with a falsy value keeps its key. -/
theorem to_swagger_dict_plain_dict_keys_witness :
    ([("k", SwaggerVal.str "")] :
        List (String × SwaggerVal)).map Prod.fst =
      ([("k", SwaggerVal.str "")] :
        List (String × SwaggerVal)).map Prod.fst :=
  to_swagger_dict_plain_dict_keys.1 [("k", SwaggerVal.str "")]
    [("k", SwaggerVal.str "")]
    (by rw [to_swagger_dict, swagger_dict_entries]
        rw [to_swagger_dict] <;> simp [swagger_dict_entries])

end TfxSpec
